import Mathlib

/-!
Verification of the session-theme assigner and configuration store of the
`wmcli` tmux session manager (`src/index.js` and the unnamed legacy variant).

The JavaScript is embedded shallowly:

* JS strings are modelled by their sequences of UTF-16 code units
  (`List Nat`); for text in the basic multilingual plane these coincide with
  the scalar values of a Lean `String`'s characters (`jsCharCodes`).
* 32-bit signed integer coercion (`x | 0`, `x & x`, `<<`) is `toInt32`,
  arithmetic being exact in JS doubles at the magnitudes reached here.
* The JSON configuration document is an association list of string keys to
  JSON values (`JVal`), with JS object-spread semantics (`mergeObj`) and JS
  property assignment (`jsSet`).
* The typed configuration record (`Config`) models the shape the folder
  management functions operate on after `loadWingmanConfig` has merged in
  the defaults.
* Fallible subprocess execution is an oracle `String → Except String Unit`.
-/

/-! ## 32-bit signed arithmetic and the session-name hash (src/index.js 160-168) -/

/-- JS `ToInt32`: wrap an integer into the signed 32-bit range
`[-2^31, 2^31)`.  This is what `hash & hash` and the result of `<<`
perform in the source. -/
def toInt32 (n : Int) : Int :=
  (n + 2 ^ 31) % 2 ^ 32 - 2 ^ 31

/-- One iteration of the loop body of `hashString` (src/index.js 162-166):
`hash = ((hash << 5) - hash) + char; hash = hash & hash;`.
`hash << 5` wraps the shifted value to int32; the subtraction and addition
are exact in doubles; `hash & hash` wraps the result to int32. -/
def hashStep (hash : Int) (char : Nat) : Int :=
  toInt32 (toInt32 (hash * 32) - hash + char)

/-- `hashString` (src/index.js 160-168, src/unnamed/part_000 93-101): fold
the step over the string's code units starting from 0, then `Math.abs`. -/
def hashString (codes : List Nat) : Nat :=
  (codes.foldl hashStep 0).natAbs

/-- Modelled from the spec's words (§4.1): "compute a 32-bit signed integer
hash by iterating the string's character codes, at each step setting
`hash = hash*31 + charCode` truncated to 32-bit signed range ... take the
absolute value". -/
def specRollingHash (codes : List Nat) : Nat :=
  (codes.foldl (fun hash char => toInt32 (hash * 31 + char)) 0).natAbs

/-- The UTF-16 code units of a Lean string (exact for BMP text, which is
what JS `charCodeAt` yields there). -/
def jsCharCodes (s : String) : List Nat :=
  s.data.map Char.toNat

/-! ## Theme palette and theme assignment (src/index.js 41-96, 238-241) -/

/-- A tmux status-bar color theme (entries of `statusThemes`). -/
structure Theme where
  name : String
  bg : String
  fg : String
  accent : String
  deriving Repr, DecidableEq

/-- The fixed palette `statusThemes` (src/index.js 41-96). -/
def statusThemes : List Theme :=
  [ ⟨"blue", "#1e3a8a", "#ffffff", "#60a5fa"⟩,
    ⟨"green", "#166534", "#ffffff", "#4ade80"⟩,
    ⟨"purple", "#7c3aed", "#ffffff", "#a78bfa"⟩,
    ⟨"orange", "#ea580c", "#ffffff", "#fb923c"⟩,
    ⟨"red", "#dc2626", "#ffffff", "#f87171"⟩,
    ⟨"teal", "#0f766e", "#ffffff", "#5eead4"⟩,
    ⟨"pink", "#be185d", "#ffffff", "#f472b6"⟩,
    ⟨"indigo", "#4338ca", "#ffffff", "#818cf8"⟩,
    ⟨"cyan", "#0891b2", "#ffffff", "#67e8f9"⟩ ]

/-- The palette index chosen for a session name:
`hashString(sessionName) % statusThemes.length` (src/index.js 239-240). -/
def themeIndex (sessionName : String) : Nat :=
  hashString (jsCharCodes sessionName) % statusThemes.length

/-- `getThemeForSession` (src/index.js 238-241):
`statusThemes[hashString(sessionName) % statusThemes.length]`. -/
def getThemeForSession (sessionName : String) : Theme :=
  statusThemes.get ⟨themeIndex sessionName, Nat.mod_lt _ (by decide)⟩

/-! ### C1: the shift-multiply loop equals the *31 rolling hash -/

theorem toInt32_eq_of_emod_eq {a b : Int} (h : a % 2 ^ 32 = b % 2 ^ 32) :
    toInt32 a = toInt32 b := by
  unfold toInt32
  omega

theorem hashStep_eq (hash : Int) (char : Nat) :
    hashStep hash char = toInt32 (hash * 31 + char) := by
  unfold hashStep
  apply toInt32_eq_of_emod_eq
  unfold toInt32
  omega

theorem foldl_hashStep_eq (codes : List Nat) : ∀ h : Int,
    codes.foldl hashStep h
      = codes.foldl (fun hash char => toInt32 (hash * 31 + char)) h := by
  induction codes with
  | nil => intro h; rfl
  | cons c cs ih =>
    intro h
    simp only [List.foldl_cons, hashStep_eq]
    exact ih _

/-- C1: for every sequence of character codes, `hashString` equals the
absolute value of the 32-bit signed polynomial rolling hash that at each
character sets the accumulator to `accumulator*31 + charCode` wrapped to
the signed 32-bit range: `((hash << 5) - hash) + char` followed by
`hash & hash` computes exactly `hash*31 + charCode` with 32-bit wrap. -/
theorem hashString_eq_specRollingHash (codes : List Nat) :
    hashString codes = specRollingHash codes := by
  unfold hashString specRollingHash
  rw [foldl_hashStep_eq]

/-! ### C5, C6: the palette lookup is always in bounds; empty string maps to index 0 -/

/-- C5: for every string, the palette index computed by the theme assigner
satisfies `0 ≤ index < N` with `N = 9` the palette size, so the lookup
`statusThemes[hash % statusThemes.length]` is in bounds; `getThemeForSession`
is a total function over all strings by construction. -/
theorem themeIndex_lt_palette_size (s : String) :
    themeIndex s < statusThemes.length ∧ statusThemes.length = 9 := by
  exact ⟨Nat.mod_lt _ (by decide), rfl⟩

theorem themeIndex_lt_palette_size_witness :
    themeIndex "wingman" < statusThemes.length ∧ statusThemes.length = 9 :=
  themeIndex_lt_palette_size "wingman"

/-- C6: the theme assigner applied to the empty string returns the theme at
index 0 of the fixed palette, because the hash of the empty string is 0. -/
theorem getThemeForSession_empty :
    hashString (jsCharCodes "") = 0 ∧ themeIndex "" = 0 ∧
      getThemeForSession "" = statusThemes.get ⟨0, by decide⟩ := by
  refine ⟨rfl, rfl, rfl⟩

/-! ## The JSON configuration document (src/index.js 108-157)

The backing store is a single JSON file.  A parsed JSON document is an
association list of string keys to JSON values, in property order, and the
merge `{ ...getDefaultConfig(), ...config }` is JS object spread. -/

/-- A JSON value as produced by `JSON.parse`. -/
inductive JVal where
  | null
  | bool (b : Bool)
  | num (n : Int)
  | str (s : String)
  | arr (elems : List JVal)
  | obj (fields : List (String × JVal))

/-- The object literal returned by `getDefaultConfig` (src/index.js
108-119), as a JSON document. -/
def getDefaultConfigDoc : List (String × JVal) :=
  [ ("firstRun", .bool true),
    ("projectFolders", .arr []),
    ("preferences", .obj [ ("defaultLayout", .str "single"),
                           ("autoMenu", .bool true),
                           ("reconnectToRecent", .bool true) ]),
    ("lastSession", .null) ]

/-- JS object spread `{ ...a, ...b }`: the keys of `a` in order, each taking
`b`'s value when `b` also has the key, followed by the keys of `b` that are
absent from `a`, in order. -/
def mergeObj (a b : List (String × JVal)) : List (String × JVal) :=
  a.map (fun p => (p.1, (List.lookup p.1 b).getD p.2)) ++
    b.filter (fun p => (List.lookup p.1 a).isNone)

/-- The observable states of the backing file `~/.wingman-config.json` as
`loadWingmanConfig` distinguishes them: absent (`fs.existsSync` false), a
read error (`fs.readFileSync` throws), a parse error (`JSON.parse` throws),
or a successfully parsed object document. -/
inductive BackingFile where
  | missing
  | readFailure
  | parseFailure
  | parsed (doc : List (String × JVal))

/-- `loadWingmanConfig` (src/index.js 121-135): missing file and both
failure modes fall back to the default configuration (the `catch` logs a
warning and falls through); a parsed document is spread over the defaults. -/
def loadWingmanConfig : BackingFile → List (String × JVal)
  | .missing => getDefaultConfigDoc
  | .readFailure => getDefaultConfigDoc
  | .parseFailure => getDefaultConfigDoc
  | .parsed doc => mergeObj getDefaultConfigDoc doc

/-- `saveWingmanConfig` (src/index.js 137-146) on the success path: the
document is stringified and written, so the next read parses back an equal
document (`JSON.parse ∘ JSON.stringify` is the identity on these values). -/
def saveWingmanConfig (config : List (String × JVal)) : BackingFile :=
  .parsed config

/-- JS property assignment `obj[k] = v`: replace the value at an existing
key in place, or append the property when absent. -/
def jsSet (obj : List (String × JVal)) (k : String) (v : JVal) :
    List (String × JVal) :=
  if (List.lookup k obj).isSome then
    obj.map (fun p => if p.1 == k then (k, v) else p)
  else
    obj ++ [(k, v)]

/-- `isFirstRun` (src/index.js 148-151): load and read `config.firstRun`. -/
def isFirstRun (st : BackingFile) : JVal :=
  (List.lookup "firstRun" (loadWingmanConfig st)).getD .null

/-- `markFirstRunComplete` (src/index.js 153-157) on the success path:
load, set `firstRun = false`, save. -/
def markFirstRunComplete (st : BackingFile) : BackingFile :=
  saveWingmanConfig (jsSet (loadWingmanConfig st) "firstRun" (.bool false))

/-! ### Lookup laws of the spread merge -/

theorem lookup_map_values (b : List (String × JVal)) (k : String) :
    ∀ a : List (String × JVal),
      List.lookup k (a.map (fun p => (p.1, (List.lookup p.1 b).getD p.2)))
        = (List.lookup k a).map (fun v => (List.lookup k b).getD v) := by
  intro a
  induction a with
  | nil => rfl
  | cons q t ih =>
    obtain ⟨k1, v1⟩ := q
    by_cases hk : k = k1
    · subst hk
      simp [List.lookup_cons]
    · have hb : (k == k1) = false := by simpa using hk
      simp only [List.map_cons, List.lookup_cons, hb]
      exact ih

theorem lookup_filter_of_not_mem (a : List (String × JVal)) (k : String)
    (hk : List.lookup k a = none) :
    ∀ b : List (String × JVal),
      List.lookup k (b.filter (fun p => (List.lookup p.1 a).isNone))
        = List.lookup k b := by
  intro b
  induction b with
  | nil => rfl
  | cons q t ih =>
    obtain ⟨k2, v2⟩ := q
    by_cases hq : (List.lookup k2 a).isNone
    · rw [List.filter_cons_of_pos (by simpa using hq)]
      by_cases hkk : k = k2
      · subst hkk; simp [List.lookup_cons]
      · have hb : (k == k2) = false := by simpa using hkk
        simp only [List.lookup_cons, hb]
        exact ih
    · have hkk : k ≠ k2 := by
        intro h
        subst h
        exact hq (by simp [hk])
      have hb : (k == k2) = false := by simpa using hkk
      rw [List.filter_cons_of_neg (by simpa using hq)]
      rw [ih]
      simp only [List.lookup_cons, hb]

theorem lookup_mergeObj (a b : List (String × JVal)) (k : String) :
    List.lookup k (mergeObj a b)
      = (List.lookup k b).or (List.lookup k a) := by
  unfold mergeObj
  rw [List.lookup_append, lookup_map_values]
  cases ha : List.lookup k a with
  | none =>
    rw [lookup_filter_of_not_mem a k ha b]
    cases List.lookup k b <;> rfl
  | some v =>
    cases List.lookup k b <;> rfl

theorem lookup_of_mem_keyNodup :
    ∀ a : List (String × JVal), (a.map Prod.fst).Nodup →
      ∀ p ∈ a, List.lookup p.1 a = some p.2 := by
  intro a
  induction a with
  | nil => intro _ p hp; cases hp
  | cons q t ih =>
    obtain ⟨k1, v1⟩ := q
    intro hnd p hp
    rw [List.map_cons, List.nodup_cons] at hnd
    cases hp with
    | head =>
      simp [List.lookup_cons]
    | tail _ hpt =>
      have hne : p.1 ≠ k1 := by
        intro h
        have hmem : p.1 ∈ List.map Prod.fst t :=
          List.mem_map_of_mem Prod.fst hpt
        rw [h] at hmem
        exact hnd.1 hmem
      have hb : (p.1 == k1) = false := by simpa using hne
      simp only [List.lookup_cons, hb]
      exact ih hnd.2 p hpt

theorem lookup_isSome_of_mem :
    ∀ (a : List (String × JVal)) (p : String × JVal), p ∈ a →
      (List.lookup p.1 a).isSome := by
  intro a
  induction a with
  | nil => intro p hp; cases hp
  | cons q t ih =>
    obtain ⟨k2, v2⟩ := q
    intro p hp
    by_cases hk : p.1 = k2
    · have hb : (p.1 == k2) = true := by simpa using hk
      simp only [List.lookup_cons, hb, Option.isSome_some]
    · have hb : (p.1 == k2) = false := by simpa using hk
      simp only [List.lookup_cons, hb]
      cases hp with
      | head => exact absurd rfl hk
      | tail _ hpt => exact ih p hpt

/-- Re-merging an already-merged document over the same defaults changes
nothing, provided the default record has no duplicate keys. -/
theorem mergeObj_merge_self (a b : List (String × JVal))
    (hnd : (a.map Prod.fst).Nodup) :
    mergeObj a (mergeObj a b) = mergeObj a b := by
  have hmap : a.map (fun p => (p.1, (List.lookup p.1 (mergeObj a b)).getD p.2))
      = a.map (fun p => (p.1, (List.lookup p.1 b).getD p.2)) := by
    apply List.map_congr_left
    intro p hp
    rw [lookup_mergeObj, lookup_of_mem_keyNodup a hnd p hp]
    cases List.lookup p.1 b <;> rfl
  have hfilter : (mergeObj a b).filter (fun p => (List.lookup p.1 a).isNone)
      = b.filter (fun p => (List.lookup p.1 a).isNone) := by
    unfold mergeObj
    rw [List.filter_append]
    have h1 : (a.map (fun p => (p.1, (List.lookup p.1 b).getD p.2))).filter
        (fun p => (List.lookup p.1 a).isNone) = [] := by
      rw [List.filter_eq_nil_iff]
      intro q hq
      rw [List.mem_map] at hq
      obtain ⟨p, hp, rfl⟩ := hq
      have hs := lookup_isSome_of_mem a p hp
      intro hn
      rw [Option.isNone_iff_eq_none] at hn
      rw [hn] at hs
      simp at hs
    have h2 : (b.filter (fun p => (List.lookup p.1 a).isNone)).filter
        (fun p => (List.lookup p.1 a).isNone)
        = b.filter (fun p => (List.lookup p.1 a).isNone) := by
      rw [List.filter_filter]
      simp [Bool.and_self]
    rw [h1, h2, List.nil_append]
  calc mergeObj a (mergeObj a b)
      = a.map (fun p => (p.1, (List.lookup p.1 (mergeObj a b)).getD p.2)) ++
          (mergeObj a b).filter (fun p => (List.lookup p.1 a).isNone) := rfl
    _ = a.map (fun p => (p.1, (List.lookup p.1 b).getD p.2)) ++
          b.filter (fun p => (List.lookup p.1 a).isNone) := by rw [hmap, hfilter]
    _ = mergeObj a b := rfl

/-! ### C2: load fails soft, returning the defaults -/

/-- C2: `loadWingmanConfig` is total over every state of the backing file
(never propagates an error); on a missing file it returns the compiled-in
default record, and on a read or parse failure it also returns the default
record; only a successfully parsed document produces anything else. -/
theorem loadWingmanConfig_fails_soft :
    (∀ st : BackingFile,
        loadWingmanConfig st = getDefaultConfigDoc ∨
          ∃ doc, st = .parsed doc) ∧
      loadWingmanConfig .missing = getDefaultConfigDoc ∧
      loadWingmanConfig .readFailure = getDefaultConfigDoc ∧
      loadWingmanConfig .parseFailure = getDefaultConfigDoc := by
  refine ⟨?_, rfl, rfl, rfl⟩
  intro st
  cases st with
  | missing => exact Or.inl rfl
  | readFailure => exact Or.inl rfl
  | parseFailure => exact Or.inl rfl
  | parsed doc => exact Or.inr ⟨doc, rfl⟩

/-! ### C3: the merge is a shallow, top-level union -/

/-- C3: loading a parsed document is a shallow top-level merge over the
defaults: a key takes the stored value when present (replacing the entire
default value, nested objects included) and the default value when absent.
Loading `{"firstRun": false}` yields the default record with only
`firstRun` changed, and loading a partial `preferences` object replaces
the whole default `preferences` object, dropping its other sub-fields. -/
theorem loadWingmanConfig_shallow_merge :
    (∀ (doc : List (String × JVal)) (k : String),
        List.lookup k (loadWingmanConfig (.parsed doc))
          = (List.lookup k doc).or (List.lookup k getDefaultConfigDoc)) ∧
      loadWingmanConfig (.parsed [("firstRun", .bool false)])
        = [ ("firstRun", .bool false),
            ("projectFolders", .arr []),
            ("preferences", .obj [ ("defaultLayout", .str "single"),
                                   ("autoMenu", .bool true),
                                   ("reconnectToRecent", .bool true) ]),
            ("lastSession", .null) ] ∧
      loadWingmanConfig (.parsed [("preferences", .obj [("autoMenu", .bool false)])])
        = [ ("firstRun", .bool true),
            ("projectFolders", .arr []),
            ("preferences", .obj [("autoMenu", .bool false)]),
            ("lastSession", .null) ] := by
  refine ⟨?_, rfl, rfl⟩
  intro doc k
  exact lookup_mergeObj getDefaultConfigDoc doc k

/-! ### C8: save-then-load is idempotent -/

/-- C8: for every state of the backing file, saving the record returned by
`loadWingmanConfig` and loading again yields a record equal to the one that
was saved. -/
theorem save_load_roundtrip (st : BackingFile) :
    loadWingmanConfig (saveWingmanConfig (loadWingmanConfig st))
      = loadWingmanConfig st := by
  have hnd : (getDefaultConfigDoc.map Prod.fst).Nodup := by decide
  cases st with
  | missing => exact mergeObj_merge_self _ [] hnd
  | readFailure => exact mergeObj_merge_self _ [] hnd
  | parseFailure => exact mergeObj_merge_self _ [] hnd
  | parsed doc => exact mergeObj_merge_self _ doc hnd

/-! ### C9: completing the first run clears the flag -/

theorem lookup_jsSet_map (k : String) (v : JVal) :
    ∀ obj : List (String × JVal), (List.lookup k obj).isSome →
      List.lookup k (obj.map (fun p => if p.1 == k then (k, v) else p))
        = some v := by
  intro obj
  induction obj with
  | nil => intro h; simp [List.lookup] at h
  | cons q t ih =>
    obtain ⟨k1, v1⟩ := q
    intro h
    by_cases hq : k1 = k
    · subst hq
      simp [List.lookup_cons]
    · have hb : (k1 == k) = false := by simpa using hq
      have hb2 : (k == k1) = false := by
        simpa using fun h2 => hq h2.symm
      have h2 : (List.lookup k t).isSome := by
        simpa only [List.lookup_cons, hb2] using h
      simp only [List.map_cons, hb, Bool.false_eq_true, if_false,
        List.lookup_cons, hb2]
      exact ih h2

theorem lookup_jsSet (obj : List (String × JVal)) (k : String) (v : JVal) :
    List.lookup k (jsSet obj k v) = some v := by
  unfold jsSet
  by_cases h : (List.lookup k obj).isSome
  · rw [if_pos h]
    exact lookup_jsSet_map k v obj h
  · rw [if_neg h]
    rw [List.lookup_append]
    have hnone : List.lookup k obj = none := by
      cases hl : List.lookup k obj with
      | none => rfl
      | some w => rw [hl] at h; simp at h
    rw [hnone]
    simp [List.lookup_cons]

/-- C9: for every initial state of the backing file, after
`markFirstRunComplete` completes with a successful save, `isFirstRun`
reads back `false`. -/
theorem isFirstRun_after_markFirstRunComplete (st : BackingFile) :
    isFirstRun (markFirstRunComplete st) = .bool false := by
  unfold isFirstRun markFirstRunComplete saveWingmanConfig
  show (List.lookup "firstRun"
      (mergeObj getDefaultConfigDoc
        (jsSet (loadWingmanConfig st) "firstRun" (.bool false)))).getD .null
    = .bool false
  rw [lookup_mergeObj, lookup_jsSet]
  rfl

/-! ## The typed configuration record and the folder operations

After `loadWingmanConfig` has merged in the defaults, the folder management
functions treat the configuration as a record of this shape.  Each
operation below models one user-facing mutating flow of src/index.js on the
persisted store: the inputs are the answers the user typed (path expansion
and directory checks happen before the modelled fragment, and every early
return leaves the store untouched). -/

/-- JS `String.prototype.toLowerCase()` on ASCII text, as a structurally
recursive map so that concrete instances reduce in the kernel. -/
def jsToLowerCase (s : String) : String :=
  ⟨s.data.map Char.toLower⟩

/-- JS `String.prototype.startsWith(pre)`. -/
def jsStartsWith (s pre : String) : Bool :=
  pre.data.isPrefixOf s.data

structure WingmanPreferences where
  defaultLayout : String
  autoMenu : Bool
  reconnectToRecent : Bool
  deriving Repr, DecidableEq

structure ProjectFolder where
  path : String
  name : String
  description : String
  autoMenu : Bool
  deriving Repr, DecidableEq

structure Config where
  firstRun : Bool
  projectFolders : List ProjectFolder
  preferences : WingmanPreferences
  lastSession : Option String
  deriving Repr, DecidableEq

/-- `getDefaultConfig` (src/index.js 108-119), typed form. -/
def getDefaultConfig : Config :=
  { firstRun := true,
    projectFolders := [],
    preferences :=
      { defaultLayout := "single", autoMenu := true, reconnectToRecent := true },
    lastSession := none }

/-- `addProjectFolder` (src/index.js 1641-1662), from the duplicate-name
check on: a duplicate name returns before any mutation or save; otherwise
the new folder is appended (description defaulting per line 1654, autoMenu
parsed per line 1655) and the store saved. -/
def addProjectFolder (config : Config)
    (expandedPath sessionName description autoMenuAns : String) : Config :=
  if config.projectFolders.any (fun f => f.name == sessionName) then
    config
  else
    { config with
        projectFolders := config.projectFolders ++
          [ { path := expandedPath,
              name := sessionName,
              description :=
                if description = "" then sessionName ++ " workspace"
                else description,
              autoMenu := !(jsStartsWith (jsToLowerCase autoMenuAns) "n") } ] }

/-- `editProjectFolder` (src/index.js 1742-1764): on a valid index, each
nonempty answer overwrites the corresponding field in place (no duplicate
check on the new name), and the store is saved; out-of-range indices leave
the store unchanged. -/
def editProjectFolder (config : Config) (index : Int)
    (newName newDescription newAutoMenu : String) : Config :=
  if 0 ≤ index ∧ index < (config.projectFolders.length : Int) then
    match config.projectFolders.get? index.toNat with
    | some folder =>
      let f1 := if newName ≠ "" then { folder with name := newName } else folder
      let f2 := if newDescription ≠ "" then { f1 with description := newDescription }
                else f1
      let f3 := if jsToLowerCase newAutoMenu = "y" ∨ jsToLowerCase newAutoMenu = "n" then
                  { f2 with autoMenu := jsToLowerCase newAutoMenu = "y" }
                else f2
      { config with projectFolders := config.projectFolders.set index.toNat f3 }
    | none => config
  else config

/-- `removeProjectFolder` (src/index.js 1694-1707): on a valid index and a
`y` confirmation, `splice(index, 1)` removes that entry; otherwise the
store is unchanged. -/
def removeProjectFolder (config : Config) (index : Int) (confirm : String) :
    Config :=
  if 0 ≤ index ∧ index < (config.projectFolders.length : Int) then
    if jsStartsWith (jsToLowerCase confirm) "y" then
      { config with projectFolders := config.projectFolders.eraseIdx index.toNat }
    else config
  else config

/-- The current-directory push of the first-run setup (src/index.js
488-493): appended unconditionally, autoMenu fixed to true. -/
def setupAddCurrentFolder (folders : List ProjectFolder)
    (currentDir currentProjectName description : String) : List ProjectFolder :=
  folders ++
    [ { path := currentDir,
        name := currentProjectName,
        description :=
          if description = "" then currentProjectName ++ " project"
          else description,
        autoMenu := true } ]

/-- One iteration of the additional-folders loop of the first-run setup
(src/index.js 549-554): the entry is appended with no duplicate-name
check. -/
def setupAddFolder (folders : List ProjectFolder)
    (expandedPath sessionName description autoAns : String) :
    List ProjectFolder :=
  folders ++
    [ { path := expandedPath,
        name := sessionName,
        description :=
          if description = "" then sessionName ++ " workspace"
          else description,
        autoMenu := !(jsStartsWith (jsToLowerCase autoAns) "n") } ]

/-- Completion of the first-run setup (src/index.js 571-575): the built
folder list replaces `projectFolders`, preferences are set from the
answers, and `firstRun` is cleared. -/
def setupProjectFoldersComplete (config : Config)
    (folders : List ProjectFolder) (layoutAns autoAns : String) : Config :=
  { config with
      projectFolders := folders,
      preferences :=
        { config.preferences with
            defaultLayout := if jsToLowerCase layoutAns = "split" then "split" else "single",
            autoMenu := !(jsStartsWith (jsToLowerCase autoAns) "n") },
      firstRun := false }

/-- The skip path of the first-run setup (src/index.js 456-458): only
`firstRun` is cleared. -/
def setupSkipped (config : Config) : Config :=
  { config with firstRun := false }

/-- `resetToFirstRun` (src/index.js 1825-1828): typing exactly `yes` saves
the default configuration; anything else cancels. -/
def resetToFirstRun (config : Config) (confirm : String) : Config :=
  if confirm = "yes" then getDefaultConfig else config

/-- The folder list built by the first-run setup: the optional
current-directory entry followed by one loop iteration per answered
prompt. -/
def setupBuiltFolders (start : List ProjectFolder)
    (inputs : List (String × String × String × String)) : List ProjectFolder :=
  inputs.foldl (fun fs q => setupAddFolder fs q.1 q.2.1 q.2.2.1 q.2.2.2) start

/-- The configurations of the persisted store reachable from the default
by the user-facing mutating operations: adding, editing and removing a
project folder, the first-run setup (skip or complete), and factory
reset. -/
inductive ReachableConfig : Config → Prop where
  | init : ReachableConfig getDefaultConfig
  | add (c : Config) (p n d a : String) :
      ReachableConfig c → ReachableConfig (addProjectFolder c p n d a)
  | edit (c : Config) (i : Int) (n d a : String) :
      ReachableConfig c → ReachableConfig (editProjectFolder c i n d a)
  | remove (c : Config) (i : Int) (confirm : String) :
      ReachableConfig c → ReachableConfig (removeProjectFolder c i confirm)
  | setupSkip (c : Config) : ReachableConfig c → ReachableConfig (setupSkipped c)
  | setup (c : Config) (start : List ProjectFolder)
      (inputs : List (String × String × String × String))
      (layoutAns autoAns : String)
      (hstart : start = [] ∨
        ∃ dir nm de, start = setupAddCurrentFolder [] dir nm de) :
      ReachableConfig c →
      ReachableConfig
        (setupProjectFoldersComplete c (setupBuiltFolders start inputs)
          layoutAns autoAns)
  | reset (c : Config) (confirm : String) :
      ReachableConfig c → ReachableConfig (resetToFirstRun c confirm)

/-- The same reachable set with the two unguarded flows (folder edit and
the setup folder loop) removed. -/
inductive ReachableSafe : Config → Prop where
  | init : ReachableSafe getDefaultConfig
  | add (c : Config) (p n d a : String) :
      ReachableSafe c → ReachableSafe (addProjectFolder c p n d a)
  | remove (c : Config) (i : Int) (confirm : String) :
      ReachableSafe c → ReachableSafe (removeProjectFolder c i confirm)
  | setupSkip (c : Config) : ReachableSafe c → ReachableSafe (setupSkipped c)
  | reset (c : Config) (confirm : String) :
      ReachableSafe c → ReachableSafe (resetToFirstRun c confirm)

/-! ### C7: a duplicate-named add is rejected without mutation -/

/-- C7: adding a project folder whose name duplicates an existing entry's
name is rejected atomically: the duplicate check at src/index.js 1642
returns before the push and the save, so the persisted store is unchanged. -/
theorem addProjectFolder_rejects_duplicate (config : Config)
    (expandedPath sessionName description autoMenuAns : String)
    (h : config.projectFolders.any (fun f => f.name == sessionName) = true) :
    addProjectFolder config expandedPath sessionName description autoMenuAns
      = config := by
  unfold addProjectFolder
  rw [if_pos h]

theorem addProjectFolder_rejects_duplicate_witness :
    (Config.mk false [⟨"/orig", "app", "app workspace", true⟩]
        ⟨"single", true, true⟩ none).projectFolders.any
        (fun f => f.name == "app") = true ∧
      addProjectFolder
          (Config.mk false [⟨"/orig", "app", "app workspace", true⟩]
            ⟨"single", true, true⟩ none) "/x" "app" "" ""
        = Config.mk false [⟨"/orig", "app", "app workspace", true⟩]
            ⟨"single", true, true⟩ none ∧
      (Config.mk false [⟨"/orig", "app", "app workspace", true⟩]
          ⟨"single", true, true⟩ none).projectFolders
        = [⟨"/orig", "app", "app workspace", true⟩] :=
  ⟨by decide,
   addProjectFolder_rejects_duplicate _ "/x" "app" "" "" (by decide),
   rfl⟩

/-! ### C4: name uniqueness is not an invariant of all mutating operations

`addProjectFolder` rejects duplicate names, but `editProjectFolder`
(src/index.js 1754) renames without any duplicate check, and the setup
folder loop (src/index.js 549-554) appends without one, so a configuration
with two folders of the same name is reachable. -/

/-- C4 refutation: a concrete reachable configuration — start from the
default store, add folders named `alpha` and `beta`, then edit folder 1
renaming it to `beta` — whose projectFolders names are not unique. -/
theorem projectFolder_names_not_invariant :
    ReachableConfig
        (editProjectFolder
          (addProjectFolder (addProjectFolder getDefaultConfig "/a" "alpha" "" "")
            "/b" "beta" "" "") 0 "beta" "" "") ∧
      ¬ ((editProjectFolder
            (addProjectFolder (addProjectFolder getDefaultConfig "/a" "alpha" "" "")
              "/b" "beta" "" "") 0 "beta" "" "").projectFolders.map
          ProjectFolder.name).Nodup := by
  constructor
  · exact ReachableConfig.edit _ _ _ _ _
      (ReachableConfig.add _ _ _ _ _
        (ReachableConfig.add _ _ _ _ _ ReachableConfig.init))
  · decide

/-- C4 amended: name uniqueness is an invariant of the guarded operations —
every configuration reachable from the default by `addProjectFolder` (which
rejects duplicates), `removeProjectFolder`, the setup skip path, and the
factory reset has pairwise-distinct folder names; `editProjectFolder` and
the first-run setup folder loop, which perform no duplicate check, are the
operations that can break it. -/
theorem projectFolder_names_nodup_of_safe (c : Config)
    (h : ReachableSafe c) :
    (c.projectFolders.map ProjectFolder.name).Nodup := by
  induction h with
  | init => exact List.nodup_nil
  | add c p n d a hc ih =>
    unfold addProjectFolder
    by_cases hdup : c.projectFolders.any (fun f => f.name == n) = true
    · rw [if_pos hdup]; exact ih
    · rw [if_neg hdup]
      simp only [List.map_append, List.map_cons, List.map_nil]
      rw [List.nodup_append]
      refine ⟨ih, List.nodup_singleton _, ?_⟩
      intro x hx hxn
      rw [List.mem_singleton] at hxn
      subst hxn
      rw [List.mem_map] at hx
      obtain ⟨f, hf, hfn⟩ := hx
      apply hdup
      rw [List.any_eq_true]
      exact ⟨f, hf, by simpa using hfn⟩
  | remove c i confirm hc ih =>
    unfold removeProjectFolder
    by_cases hidx : 0 ≤ i ∧ i < (c.projectFolders.length : Int)
    · rw [if_pos hidx]
      by_cases hconf : jsStartsWith (jsToLowerCase confirm) "y" = true
      · rw [if_pos hconf]
        exact List.Nodup.sublist
          ((List.eraseIdx_sublist c.projectFolders i.toNat).map _) ih
      · rw [if_neg hconf]; exact ih
    · rw [if_neg hidx]; exact ih
  | setupSkip c hc ih => exact ih
  | reset c confirm hc ih =>
    unfold resetToFirstRun
    by_cases hconf : confirm = "yes"
    · rw [if_pos hconf]; exact List.nodup_nil
    · rw [if_neg hconf]; exact ih

theorem projectFolder_names_nodup_of_safe_witness :
    ((addProjectFolder getDefaultConfig "/a" "alpha" "" "").projectFolders.map
      ProjectFolder.name).Nodup :=
  projectFolder_names_nodup_of_safe _
    (ReachableSafe.add _ _ _ _ _ ReachableSafe.init)

/-! ## setSessionColors (src/index.js 244-367)

Subprocess execution (`execPromise`) is an oracle mapping a command line to
success or an error; `runCommands` models the sequential `await` loop in
which the first failing command aborts into the surrounding `catch`. -/

/-- The sequential execution of a command list: the first error aborts. -/
def runCommands (execP : String → Except String Unit) :
    List String → Except String Unit
  | [] => .ok ()
  | c :: cs =>
    match execP c with
    | .ok _ => runCommands execP cs
    | .error e => .error e

/-- The command lines built by `setSessionColors` (src/index.js 260-355):
status-bar colors and essential configuration, then the platform-dependent
clipboard bindings, the paste binding, and the layout key bindings. -/
def sessionCommands (sessionName : String) (theme : Theme)
    (isDarwin hasReattach useSplitScreen : Bool) : List String :=
  let base :=
    [ "tmux set-option -t \"" ++ sessionName ++ "\" status-bg \"" ++ theme.bg ++ "\"",
      "tmux set-option -t \"" ++ sessionName ++ "\" status-fg \"" ++ theme.fg ++ "\"",
      "tmux set-option -t \"" ++ sessionName ++ "\" status-left-style \"bg=" ++
        theme.accent ++ ",fg=" ++ theme.bg ++ "\"",
      "tmux set-option -t \"" ++ sessionName ++ "\" status-right-style \"bg=" ++
        theme.accent ++ ",fg=" ++ theme.bg ++ "\"",
      "tmux set-option -t \"" ++ sessionName ++ "\" window-status-current-style \"bg=" ++
        theme.accent ++ ",fg=" ++ theme.bg ++ "\"",
      "tmux set-option -t \"" ++ sessionName ++ "\" window-status-style \"bg=" ++
        theme.bg ++ ",fg=" ++ theme.fg ++ "\"",
      "tmux set-option -t \"" ++ sessionName ++ "\" pane-active-border-style \"fg=" ++
        theme.accent ++ "\"",
      "tmux set-option -t \"" ++ sessionName ++ "\" pane-border-style \"fg=" ++
        theme.bg ++ "\"",
      "tmux set-option -t \"" ++ sessionName ++ "\" mouse on",
      "tmux set-option -t \"" ++ sessionName ++ "\" history-limit 10000",
      "tmux set-option -t \"" ++ sessionName ++ "\" base-index 1",
      "tmux set-window-option -t \"" ++ sessionName ++ "\" pane-base-index 1",
      "tmux set-window-option -t \"" ++ sessionName ++ "\" mode-keys vi",
      "tmux set-option -t \"" ++ sessionName ++ "\" renumber-windows on",
      "tmux set-option -t \"" ++ sessionName ++ "\" set-clipboard on" ]
  let clipboard :=
    if isDarwin then
      if hasReattach then
        [ "tmux set-option -t \"" ++ sessionName ++
            "\" default-command \"reattach-to-user-namespace -l \\$SHELL\"",
          "tmux bind-key -t \"" ++ sessionName ++
            "\" -T copy-mode-vi MouseDragEnd1Pane send-keys -X copy-pipe-and-cancel \"reattach-to-user-namespace pbcopy\"",
          "tmux bind-key -t \"" ++ sessionName ++
            "\" -T copy-mode MouseDragEnd1Pane send-keys -X copy-pipe-and-cancel \"reattach-to-user-namespace pbcopy\"",
          "tmux bind-key -t \"" ++ sessionName ++
            "\" -T copy-mode-vi v send-keys -X begin-selection",
          "tmux bind-key -t \"" ++ sessionName ++
            "\" -T copy-mode-vi y send-keys -X copy-pipe-and-cancel \"reattach-to-user-namespace pbcopy\"",
          "tmux bind-key -t \"" ++ sessionName ++
            "\" -T copy-mode-vi Enter send-keys -X copy-pipe-and-cancel \"reattach-to-user-namespace pbcopy\"",
          "tmux bind-key -t \"" ++ sessionName ++
            "\" -T copy-mode M-w send-keys -X copy-pipe-and-cancel \"reattach-to-user-namespace pbcopy\"",
          "tmux bind-key -t \"" ++ sessionName ++
            "\" -T copy-mode C-w send-keys -X copy-pipe-and-cancel \"reattach-to-user-namespace pbcopy\"" ]
      else
        [ "tmux bind-key -t \"" ++ sessionName ++
            "\" -T copy-mode-vi MouseDragEnd1Pane send-keys -X copy-pipe-and-cancel \"pbcopy\"",
          "tmux bind-key -t \"" ++ sessionName ++
            "\" -T copy-mode MouseDragEnd1Pane send-keys -X copy-pipe-and-cancel \"pbcopy\"",
          "tmux bind-key -t \"" ++ sessionName ++
            "\" -T copy-mode-vi v send-keys -X begin-selection",
          "tmux bind-key -t \"" ++ sessionName ++
            "\" -T copy-mode-vi y send-keys -X copy-pipe-and-cancel \"pbcopy\"",
          "tmux bind-key -t \"" ++ sessionName ++
            "\" -T copy-mode-vi Enter send-keys -X copy-pipe-and-cancel \"pbcopy\"",
          "tmux bind-key -t \"" ++ sessionName ++
            "\" -T copy-mode M-w send-keys -X copy-pipe-and-cancel \"pbcopy\"",
          "tmux bind-key -t \"" ++ sessionName ++
            "\" -T copy-mode C-w send-keys -X copy-pipe-and-cancel \"pbcopy\"" ]
    else
      [ "tmux bind-key -t \"" ++ sessionName ++
          "\" -T copy-mode-vi MouseDragEnd1Pane send-keys -X copy-pipe-and-cancel \"xclip -selection clipboard -i\"",
        "tmux bind-key -t \"" ++ sessionName ++
          "\" -T copy-mode MouseDragEnd1Pane send-keys -X copy-pipe-and-cancel \"xclip -selection clipboard -i\"",
        "tmux bind-key -t \"" ++ sessionName ++
          "\" -T copy-mode-vi v send-keys -X begin-selection",
        "tmux bind-key -t \"" ++ sessionName ++
          "\" -T copy-mode-vi y send-keys -X copy-pipe-and-cancel \"xclip -selection clipboard -i\"",
        "tmux bind-key -t \"" ++ sessionName ++
          "\" -T copy-mode-vi Enter send-keys -X copy-pipe-and-cancel \"xclip -selection clipboard -i\"",
        "tmux bind-key -t \"" ++ sessionName ++
          "\" -T copy-mode M-w send-keys -X copy-pipe-and-cancel \"xclip -selection clipboard -i\"",
        "tmux bind-key -t \"" ++ sessionName ++
          "\" -T copy-mode C-w send-keys -X copy-pipe-and-cancel \"xclip -selection clipboard -i\"" ]
  let paste := ["tmux bind-key -t \"" ++ sessionName ++ "\" p paste-buffer"]
  let layout :=
    if useSplitScreen then
      [ "tmux bind-key -t \"" ++ sessionName ++
          "\" c new-window \\; split-window -h -c \"#\x7bpane_current_path\x7d\" \\; select-pane -L",
        "tmux bind-key -t \"" ++ sessionName ++
          "\" S new-session \\; split-window -h -c \"#\x7bpane_current_path\x7d\" \\; select-pane -L" ]
    else
      [ "tmux bind-key -t \"" ++ sessionName ++
          "\" c new-window -c \"#\x7bpane_current_path\x7d\"",
        "tmux bind-key -t \"" ++ sessionName ++
          "\" S new-session -c \"#\x7bpane_current_path\x7d\"" ]
  base ++ clipboard ++ paste ++ layout

/-- `setSessionColors` (src/index.js 244-367): the theme is computed from
the session name up front; on macOS the availability of
`reattach-to-user-namespace` is probed (its own try/catch); every command
is executed in order inside a try whose catch ignores the failure; both the
success path and the catch return the same `theme`. -/
def setSessionColors (execP : String → Except String Unit) (isDarwin : Bool)
    (sessionName : String) (useSplitScreen : Bool) : Theme :=
  let theme := getThemeForSession sessionName
  let hasReattach := isDarwin &&
    (match execP "which reattach-to-user-namespace" with
     | .ok _ => true
     | .error _ => false)
  match runCommands execP
      (sessionCommands sessionName theme isDarwin hasReattach useSplitScreen) with
  | .ok _ => theme
  | .error _ => theme

/-- C10: for every session name, every platform, every layout preference
and every behavior of the tmux subprocess (success or any failure),
`setSessionColors` returns exactly `getThemeForSession sessionName`: the
catch swallows the failure and returns the same theme, so the returned
theme depends only on the name. -/
theorem setSessionColors_returns_theme
    (execP : String → Except String Unit) (isDarwin : Bool)
    (sessionName : String) (useSplitScreen : Bool) :
    setSessionColors execP isDarwin sessionName useSplitScreen
      = getThemeForSession sessionName := by
  simp only [setSessionColors]
  split <;> rfl
